import Mathlib

/-!
Verification of the Elsewherr tag-reconciliation engine (src/elsewherr.py).

The development shallowly embeds the pure core of the script:
the tag codec `_get_tag_label_for_provider`, the per-item desired-tag-set
computation and update decision of `_process_single_item` (lines 277-323),
and the thread-safe outcome aggregator `_log_change` (lines 185-206).
Network effects are modelled by an explicit fault schedule: each loop
iteration of `_process_single_item` may be told to raise a transient
(`RequestException`) or a permanent (other `Exception`) error at the
fetch phase (TMDB id resolution / watch-provider query) or at the update
call, exactly where the Python code can raise.  External availability
data is a fixed function of the TMDB id, matching the unchanged-data
assumption of the specification's properties.
-/

set_option autoImplicit false

namespace Elsewherr

/-- Constant `MAX_RETRIES` (src/elsewherr.py line 32). -/
def MAX_RETRIES : Nat := 3

/-- Constant `RETRY_DELAY_SECONDS` (src/elsewherr.py line 33). -/
def RETRY_DELAY_SECONDS : Nat := 30

/-- Python `re.sub("[^A-Za-z0-9]+", "", s)` as used in
`_get_tag_label_for_provider` (line 147): drop every character that is not
an ASCII letter or digit. -/
def sanitizeName (s : String) : String :=
  ⟨s.data.filter (fun c => c.isAlpha || c.isDigit)⟩

/-- Python `str.lower()` on the ASCII strings handled by the script:
lower-case every character. -/
def pyLower (s : String) : String :=
  ⟨s.data.map Char.toLower⟩

/-- Helper for `pyStartswith`: does the first list occur as an initial
segment of the second? -/
def charsStart : List Char → List Char → Bool
  | [], _ => true
  | _ :: _, [] => false
  | p :: ps, c :: cs => p == c && charsStart ps cs

/-- Python `s.startswith(pat)` as used on tag labels (line 289). -/
def pyStartswith (s pat : String) : Bool :=
  charsStart pat.data s.data

/-- `_get_tag_label_for_provider` (lines 143-148): strip the provider name
to alphanumerics, prepend the configured prefix `pfx`, lower-case the whole
string. -/
def getTagLabelForProvider (pfx providerName : String) : String :=
  pyLower (pfx ++ sanitizeName providerName)

/-- The specification's tag-label formula, stated for comparison with the
code's `getTagLabelForProvider`: `label = prefix + normalize(providerName)`
where normalize strips all characters outside `[A-Za-z0-9]` and lower-cases
its result (the prefix itself is left untouched). -/
def labelForSpec (pfx providerName : String) : String :=
  pfx ++ pyLower (sanitizeName providerName)

/-- Line 289's managed-tag test for a tag id `t`:
`tags_id_to_label.get(tag_id, "").startswith(self.prefix)`. -/
def managedTag (pfx : String) (idToLabel : Nat → Option String) (t : Nat) : Bool :=
  pyStartswith ((idToLabel t).getD "") pfx

/-- The tag ids added by the provider loop (lines 290-293): for each
flatrate provider name that is among the configured providers, look the
derived label up in `tags_label_to_id`; a missing entry or a falsy (zero)
id is skipped silently. -/
def providerTagIds (pfx : String) (labelToId : String → Option Nat)
    (configured flatrate : List String) : Finset Nat :=
  (flatrate.filterMap (fun p =>
    if p ∈ configured then
      match labelToId (getTagLabelForProvider pfx p) with
      | some tid => if tid = 0 then none else some tid
      | none => none
    else none)).toFinset

/-- Lines 288-293: the new (desired) tag set — the current tags with every
managed tag filtered out, together with the tag ids of the configured
flatrate providers. -/
def computeNewTags (pfx : String) (idToLabel : Nat → Option String)
    (labelToId : String → Option Nat) (configured flatrate : List String)
    (current : Finset Nat) : Finset Nat :=
  current.filter (fun t => ¬ managedTag pfx idToLabel t) ∪
    providerTagIds pfx labelToId configured flatrate

/-- Lines 295-296: the label set reported for a tag-id difference `s`:
`{tags_id_to_label.get(t) for t in s if t}` — falsy (zero) ids dropped,
labels looked up without a default (so an unknown id contributes `none`). -/
def labelDiff (idToLabel : Nat → Option String) (s : Finset Nat) :
    Finset (Option String) :=
  (s.filter (fun t => t ≠ 0)).image idToLabel

/-- The per-run, per-service configuration visible to `_process_single_item`:
the tag prefix, the configured provider list, the two tag lookup tables
built at run start (lines 334-335), and the external availability data
(`watch_providers(...)` restricted to the configured region's flatrate
list), a fixed function of the TMDB id since the specification's
properties assume unchanged external data. -/
structure Config where
  pfx : String
  configured : List String
  idToLabel : Nat → Option String
  labelToId : String → Option Nat
  avail : Nat → List String

/-- The slice of a media item the engine touches: the resolved TMDB id
(`tmdbId` for movies, the find-by-tvdb-id result for series; `none` when
absent) and the current tag-id set.  The title only flows into log
messages and is dropped. -/
structure Item where
  resolvedId : Option Nat
  tags : Finset Nat
deriving DecidableEq

/-- Python truthiness of the resolved id at line 280 (`if not tmdb_id`):
`None` and `0` are both falsy. -/
def truthyId : Option Nat → Bool
  | none => false
  | some n => n != 0

/-- Where, if anywhere, an attempt of the retry loop raises.  `fetchNet` /
`fetchOther` model a `RequestException` / other `Exception` from the id
resolution or the watch-provider query; `updateNet` / `updateOther` model
the same from the `upd_movie` / `upd_series` call.  (For series the id
resolution is itself a network call preceding the falsy-id check, which
fixes the order of the fetch-fault test and the falsy-id test below.) -/
inductive Fault
  | noFault
  | fetchNet
  | fetchOther
  | updateNet
  | updateOther
deriving DecidableEq

/-- The fault-free schedule: no attempt raises. -/
def noFaults : Nat → Fault := fun _ => Fault.noFault

/-- The reasons appended to `errors_log` by `_process_single_item`:
line 282 (`TMDB ID not found.`), line 317 (`Error: <message>`), and
line 321 (`Network error after N retries.`). -/
inductive ErrReason
  | tmdbNotFound
  | genericError
  | networkAfterRetries (n : Nat)
deriving DecidableEq

/-- One invocation of `_log_change`: the label sets passed as
`added_labels` / `removed_labels` and the `success` flag. -/
structure LogCall where
  added : Finset (Option String)
  removed : Finset (Option String)
  success : Bool
deriving DecidableEq

/-- The observable trace of one `_process_single_item` call: number of
`upd_movie`/`upd_series` calls issued, the sleeps performed between
retries, the number of loop iterations entered, the `errors_log` entries
appended, and the `_log_change` invocations. -/
structure Trace where
  updateCalls : Nat
  sleeps : List Nat
  attempts : Nat
  errors : List ErrReason
  logCalls : List LogCall
deriving DecidableEq

/-- The empty trace at loop entry. -/
def emptyTrace : Trace := ⟨0, [], 0, [], []⟩

/-- The result of `_process_single_item`: the final in-memory item (its
`tags` field is mutated at line 297 before the update call), the trace,
and the boolean return value. -/
structure RunResult where
  item : Item
  trace : Trace
  returned : Bool
deriving DecidableEq

/-- Lines 320-323: the loop was exhausted by transient failures; record a
single `Network error after MAX_RETRIES retries.` entry and one failed
`_log_change` outcome. -/
def recordNetworkFailure (item : Item) (tr : Trace) : RunResult :=
  ⟨item,
   { tr with errors := tr.errors ++ [ErrReason.networkAfterRetries MAX_RETRIES],
             logCalls := tr.logCalls ++ [⟨∅, ∅, false⟩] },
   false⟩

/-- Lines 313-319: a non-network exception; record a generic `errors_log`
entry and one failed `_log_change` outcome, return immediately. -/
def recordGenericFailure (item : Item) (tr : Trace) : RunResult :=
  ⟨item,
   { tr with errors := tr.errors ++ [ErrReason.genericError],
             logCalls := tr.logCalls ++ [⟨∅, ∅, false⟩] },
   false⟩

/-- The retry loop of `_process_single_item` (lines 277-323).  `remaining`
is the number of loop iterations still available (initially
`MAX_RETRIES`); `idx` indexes the fault schedule by attempt.  A transient
fault sleeps `RETRY_DELAY_SECONDS` and retries while iterations remain
(line 308-310), and falls through to `recordNetworkFailure` on the last
iteration. -/
def loopAttempts (cfg : Config) (faults : Nat → Fault) :
    Nat → Nat → Item → Trace → RunResult
  | 0, _, item, tr => recordNetworkFailure item tr
  | remaining + 1, idx, item, tr =>
    let tr := { tr with attempts := tr.attempts + 1 }
    match faults idx with
    | Fault.fetchNet =>
      if remaining = 0 then
        recordNetworkFailure item tr
      else
        loopAttempts cfg faults remaining (idx + 1) item
          { tr with sleeps := tr.sleeps ++ [RETRY_DELAY_SECONDS] }
    | Fault.fetchOther => recordGenericFailure item tr
    | f =>
      if truthyId item.resolvedId then
        let current := item.tags
        let newTags := computeNewTags cfg.pfx cfg.idToLabel cfg.labelToId
          cfg.configured (cfg.avail (item.resolvedId.getD 0)) current
        if current ≠ newTags then
          let added := labelDiff cfg.idToLabel (newTags \ current)
          let removed := labelDiff cfg.idToLabel (current \ newTags)
          let item := { item with tags := newTags }
          let tr := { tr with updateCalls := tr.updateCalls + 1 }
          match f with
          | Fault.updateNet =>
            if remaining = 0 then
              recordNetworkFailure item tr
            else
              loopAttempts cfg faults remaining (idx + 1) item
                { tr with sleeps := tr.sleeps ++ [RETRY_DELAY_SECONDS] }
          | Fault.updateOther => recordGenericFailure item tr
          | _ =>
            ⟨item, { tr with logCalls := tr.logCalls ++ [⟨added, removed, true⟩] }, true⟩
        else
          ⟨item, { tr with logCalls := tr.logCalls ++ [⟨∅, ∅, true⟩] }, true⟩
      else
        ⟨item,
         { tr with errors := tr.errors ++ [ErrReason.tmdbNotFound],
                   logCalls := tr.logCalls ++ [⟨∅, ∅, false⟩] },
         false⟩

/-- `_process_single_item` (lines 273-323) for one item under a fault
schedule. -/
def processItem (cfg : Config) (faults : Nat → Fault) (item : Item) : RunResult :=
  loopAttempts cfg faults MAX_RETRIES 0 item emptyTrace

/-- The desired tag set the engine computes for `item` (lines 288-293)
from the unchanged external availability data. -/
def desiredFor (cfg : Config) (item : Item) : Finset Nat :=
  computeNewTags cfg.pfx cfg.idToLabel cfg.labelToId cfg.configured
    (cfg.avail (item.resolvedId.getD 0)) item.tags

/-- An entry of `changes_log` (lines 196-200): service name, the title
truncated to 30 characters, and the change data the summary string is
rendered from (the rendering itself is presentation-only and elided). -/
structure ChangeEntry where
  service : String
  title : String
  added : Finset (Option String)
  removed : Finset (Option String)
deriving DecidableEq

/-- One service's counters in `service_stats` (line 64). -/
structure Stats where
  processed : Nat
  updated : Nat
  errors : Nat
deriving DecidableEq

/-- The `defaultdict` default for `service_stats` (line 64). -/
def Stats.zero : Stats := ⟨0, 0, 0⟩

/-- Lines 201-206: the counter update performed by one `_log_change` call
on the calling service's entry. -/
def bump (success hasChanges : Bool) (st : Stats) : Stats :=
  if success then
    { st with processed := st.processed + 1,
              updated := if hasChanges then st.updated + 1 else st.updated }
  else
    { st with errors := st.errors + 1 }

/-- `defaultdict` access-and-update: apply `f` to the service's entry,
creating it from `Stats.zero` when absent. -/
def upsertStats : List (String × Stats) → String → (Stats → Stats) →
    List (String × Stats)
  | [], name, f => [(name, f Stats.zero)]
  | (n, st) :: rest, name, f =>
    if n = name then (n, f st) :: rest
    else (n, st) :: upsertStats rest name f

/-- The aggregator state guarded by `changes_lock`: the append-only
`changes_log` and the per-service `service_stats`. -/
structure AggState where
  changesLog : List ChangeEntry
  serviceStats : List (String × Stats)
deriving DecidableEq

/-- Line 198's title truncation: `title[:30] + "..." if len(title) > 30`. -/
def truncTitle (title : String) : String :=
  if title.length > 30 then title.take 30 ++ "..." else title

/-- `_log_change` (lines 185-206) as a transition on the aggregator state:
append one `changes_log` entry and bump the calling service's counters.
`change_parts` is non-empty exactly when one of the label sets is. -/
def logChange (st : AggState) (service title : String)
    (added removed : Finset (Option String)) (success : Bool) : AggState :=
  let hasChanges : Bool := decide (removed ≠ ∅) || decide (added ≠ ∅)
  { changesLog := st.changesLog ++ [⟨service, truncTitle title, added, removed⟩],
    serviceStats := upsertStats st.serviceStats service (bump success hasChanges) }

/-- One outcome submitted to the aggregator by a worker. -/
structure Submission where
  service : String
  title : String
  added : Finset (Option String)
  removed : Finset (Option String)
  success : Bool

/-- Deliver one submission. -/
def record (st : AggState) (s : Submission) : AggState :=
  logChange st s.service s.title s.added s.removed s.success

/-- Deliver a sequence of submissions.  The aggregator lock serialises
concurrent workers, so any interleaving of `N` submissions from `W`
workers is `recordAll` over some order of the `N` submissions. -/
def recordAll (st : AggState) (l : List Submission) : AggState :=
  l.foldl record st

/-- The total of the per-service `processed` and `errors` counters: one
of the two is incremented by exactly one per recorded outcome. -/
def statsSum (l : List (String × Stats)) : Nat :=
  (l.map (fun p => p.2.processed + p.2.errors)).sum

/-- Concrete tag table `id to label` used to witness the theorems on
spec-style data: tags `foo`, `svcp-netflix`, `svcp-hulu`. -/
def i2lW : Nat → Option String := fun t =>
  if t = 1 then some "foo"
  else if t = 2 then some "svcp-netflix"
  else if t = 3 then some "svcp-hulu"
  else none

/-- Concrete tag table `label to id`, inverse of `i2lW`. -/
def l2iW : String → Option Nat := fun l =>
  if l = "svcp-netflix" then some 2
  else if l = "svcp-hulu" then some 3
  else if l = "foo" then some 1
  else none

/-- Concrete run configuration used by witnesses. -/
def cfgW : Config := ⟨"svcp-", ["Netflix", "Hulu"], i2lW, l2iW, fun _ => ["Netflix", "Hulu"]⟩

/-- Concrete item with tags `{foo, svcp-netflix}` and a resolved TMDB id. -/
def itemW : Item := ⟨some 7, {1, 2}⟩

/-- Concrete item whose TMDB id resolution yields nothing. -/
def itemNoneW : Item := ⟨none, {1}⟩

/-- Concrete configuration whose provider `Disney+` has no catalog tag. -/
def cfg10W : Config :=
  ⟨"svcp-", ["Netflix", "Disney+"], i2lW, l2iW, fun _ => ["Netflix", "Disney+"]⟩

theorem pyLower_append (a b : String) : pyLower (a ++ b) = pyLower a ++ pyLower b := by
  apply String.ext
  simp [pyLower, String.data_append]

theorem mem_computeNewTags (pfx : String) (idToLabel : Nat → Option String)
    (labelToId : String → Option Nat) (configured flatrate : List String)
    (current : Finset Nat) (t : Nat) :
    t ∈ computeNewTags pfx idToLabel labelToId configured flatrate current ↔
      (t ∈ current ∧ ¬ managedTag pfx idToLabel t) ∨
        t ∈ providerTagIds pfx labelToId configured flatrate := by
  simp [computeNewTags, Finset.mem_union, Finset.mem_filter]

theorem computeNewTags_fixed (pfx : String) (idToLabel : Nat → Option String)
    (labelToId : String → Option Nat) (configured flatrate : List String)
    (current : Finset Nat) :
    computeNewTags pfx idToLabel labelToId configured flatrate
        (computeNewTags pfx idToLabel labelToId configured flatrate current) =
      computeNewTags pfx idToLabel labelToId configured flatrate current := by
  ext t
  simp only [mem_computeNewTags]
  tauto

theorem providerTagIds_mem (pfx : String) (labelToId : String → Option Nat)
    (configured flatrate : List String) (t : Nat) :
    t ∈ providerTagIds pfx labelToId configured flatrate ↔
      ∃ p ∈ flatrate, p ∈ configured ∧
        labelToId (getTagLabelForProvider pfx p) = some t ∧ t ≠ 0 := by
  simp only [providerTagIds, List.mem_toFinset, List.mem_filterMap]
  constructor
  · rintro ⟨p, hp, hf⟩
    by_cases hc : p ∈ configured
    · simp only [hc, if_true] at hf
      cases hl : labelToId (getTagLabelForProvider pfx p) with
      | none => rw [hl] at hf; cases hf
      | some tid =>
        rw [hl] at hf
        by_cases h0 : tid = 0
        · simp [h0] at hf
        · simp only [h0, if_false] at hf
          cases hf
          exact ⟨p, hp, hc, hl, h0⟩
    · simp [hc] at hf
  · rintro ⟨p, hp, hc, hl, h0⟩
    exact ⟨p, hp, by simp [hc, hl, h0]⟩

theorem processItem_noFaults_eq (cfg : Config) (item : Item) :
    processItem cfg noFaults item =
      if truthyId item.resolvedId then
        if item.tags ≠ desiredFor cfg item then
          ⟨{ item with tags := desiredFor cfg item },
           ⟨1, [], 1, [],
            [⟨labelDiff cfg.idToLabel (desiredFor cfg item \ item.tags),
              labelDiff cfg.idToLabel (item.tags \ desiredFor cfg item), true⟩]⟩,
           true⟩
        else ⟨item, ⟨0, [], 1, [], [⟨∅, ∅, true⟩]⟩, true⟩
      else ⟨item, ⟨0, [], 1, [ErrReason.tmdbNotFound], [⟨∅, ∅, false⟩]⟩, false⟩ := by
  show loopAttempts cfg noFaults (2 + 1) 0 item emptyTrace = _
  rw [loopAttempts]
  simp only [noFaults, emptyTrace, desiredFor]
  split
  · split
    · simp [labelDiff]
    · simp
  · simp

theorem loopAttempts_logCalls (cfg : Config) (faults : Nat → Fault) :
    ∀ r idx item tr, ((loopAttempts cfg faults r idx item tr).trace).logCalls.length =
      tr.logCalls.length + 1 := by
  intro r
  induction r with
  | zero =>
    intro idx item tr
    simp [loopAttempts, recordNetworkFailure]
  | succ n ih =>
    intro idx item tr
    rw [loopAttempts]
    cases h : faults idx
    · by_cases ht : truthyId item.resolvedId
      · dsimp only
        simp only [ht, if_true]
        split <;> simp
      · dsimp only
        simp [ht]
    · dsimp only
      by_cases hn : n = 0 <;> simp [hn, recordNetworkFailure, ih]
    · dsimp only
      simp [recordGenericFailure]
    · by_cases ht : truthyId item.resolvedId
      · dsimp only
        simp only [ht, if_true]
        split
        · by_cases hn : n = 0 <;> simp [hn, recordNetworkFailure, ih]
        · simp
      · dsimp only
        simp [ht]
    · by_cases ht : truthyId item.resolvedId
      · dsimp only
        simp only [ht, if_true]
        split <;> simp [recordGenericFailure]
      · dsimp only
        simp [ht]

theorem loopAttempts_updateCalls_of_fixed (cfg : Config) (faults : Nat → Fault) :
    ∀ r idx item tr, desiredFor cfg item = item.tags →
      ((loopAttempts cfg faults r idx item tr).trace).updateCalls = tr.updateCalls := by
  intro r
  induction r with
  | zero =>
    intro idx item tr _
    simp [loopAttempts, recordNetworkFailure]
  | succ n ih =>
    intro idx item tr hfix
    have hfix2 : computeNewTags cfg.pfx cfg.idToLabel cfg.labelToId cfg.configured
        (cfg.avail (item.resolvedId.getD 0)) item.tags = item.tags := hfix
    rw [loopAttempts]
    cases h : faults idx
    · by_cases ht : truthyId item.resolvedId
      · dsimp only
        simp only [ht, if_true]
        rw [hfix2]
        simp
      · dsimp only
        simp [ht]
    · dsimp only
      by_cases hn : n = 0 <;> simp [hn, recordNetworkFailure, ih _ _ _ hfix]
    · dsimp only
      simp [recordGenericFailure]
    · by_cases ht : truthyId item.resolvedId
      · dsimp only
        simp only [ht, if_true]
        rw [hfix2]
        simp
      · dsimp only
        simp [ht]
    · by_cases ht : truthyId item.resolvedId
      · dsimp only
        simp only [ht, if_true]
        rw [hfix2]
        simp
      · dsimp only
        simp [ht]

theorem loopAttempts_updateCalls_le (cfg : Config) (faults : Nat → Fault) :
    ∀ r idx item tr, ((loopAttempts cfg faults r idx item tr).trace).updateCalls ≤
      tr.updateCalls + 1 := by
  intro r
  induction r with
  | zero =>
    intro idx item tr
    simp [loopAttempts, recordNetworkFailure]
  | succ n ih =>
    intro idx item tr
    rw [loopAttempts]
    cases h : faults idx
    · by_cases ht : truthyId item.resolvedId
      · dsimp only
        simp only [ht, if_true]
        split <;> simp
      · dsimp only
        simp [ht]
    · dsimp only
      by_cases hn : n = 0
      · simp [hn, recordNetworkFailure]
      · simp only [hn, if_false]
        exact le_trans (ih _ _ _) (by simp)
    · dsimp only
      simp [recordGenericFailure]
    · by_cases ht : truthyId item.resolvedId
      · dsimp only
        simp only [ht, if_true]
        split
        · by_cases hn : n = 0
          · simp [hn, recordNetworkFailure]
          · have hfp : desiredFor cfg { item with tags := (computeNewTags cfg.pfx cfg.idToLabel cfg.labelToId cfg.configured (cfg.avail (item.resolvedId.getD 0)) item.tags) } = computeNewTags cfg.pfx cfg.idToLabel cfg.labelToId cfg.configured (cfg.avail (item.resolvedId.getD 0)) item.tags := computeNewTags_fixed _ _ _ _ _ _
            simp only [hn, if_false]
            rw [loopAttempts_updateCalls_of_fixed cfg faults n _ _ _ hfp]
        · simp
      · dsimp only
        simp [ht]
    · by_cases ht : truthyId item.resolvedId
      · dsimp only
        simp only [ht, if_true]
        split <;> simp [recordGenericFailure]
      · dsimp only
        simp [ht]

theorem processItem_updateCalls_of_fixed (cfg : Config) (faults : Nat → Fault)
    (item : Item) (hfix : desiredFor cfg item = item.tags) :
    ((processItem cfg faults item).trace).updateCalls = 0 :=
  loopAttempts_updateCalls_of_fixed cfg faults MAX_RETRIES 0 item emptyTrace hfix

theorem bump_count (success hasChanges : Bool) (st : Stats) :
    (bump success hasChanges st).processed + (bump success hasChanges st).errors =
      st.processed + st.errors + 1 := by
  cases success <;> simp [bump] <;> omega

theorem statsSum_upsert (name : String) (f : Stats → Stats)
    (hf : ∀ st, (f st).processed + (f st).errors = st.processed + st.errors + 1) :
    ∀ l : List (String × Stats),
      statsSum (upsertStats l name f) = statsSum l + 1 := by
  intro l
  induction l with
  | nil => simp [upsertStats, statsSum, hf, Stats.zero]
  | cons hd tl ih =>
    obtain ⟨n, stt⟩ := hd
    by_cases hn : n = name
    · simp only [upsertStats, hn, if_true, statsSum, List.map_cons, List.sum_cons]
      have := hf stt
      simp only [statsSum] at *
      omega
    · simp only [upsertStats, hn, if_false, statsSum, List.map_cons, List.sum_cons] at ih ⊢
      omega

theorem record_counts (st : AggState) (s : Submission) :
    (record st s).changesLog.length = st.changesLog.length + 1 ∧
    statsSum (record st s).serviceStats = statsSum st.serviceStats + 1 := by
  constructor
  · simp [record, logChange]
  · exact statsSum_upsert s.service _ (bump_count s.success _) st.serviceStats

theorem recordAll_counts (subs : List Submission) : ∀ st : AggState,
    (recordAll st subs).changesLog.length = st.changesLog.length + subs.length ∧
    statsSum (recordAll st subs).serviceStats = statsSum st.serviceStats + subs.length := by
  induction subs with
  | nil =>
    intro st
    simp [recordAll]
  | cons s rest ih =>
    intro st
    have hstep := record_counts st s
    have hrec : recordAll st (s :: rest) = recordAll (record st s) rest := rfl
    rw [hrec]
    obtain ⟨h1, h2⟩ := ih (record st s)
    constructor
    · rw [h1, hstep.1]
      simp [List.length_cons]
      omega
    · rw [h2, hstep.2]
      simp [List.length_cons]
      omega

/-- C1: for every media item, the desired tag set computed at lines
288-293 consists exactly of the current tag ids that are not managed
(label does not start with the prefix) together with the tag ids of the
configured providers offering the title — provided each such provider's
label resolves to a (nonzero) tag id, which is what makes the claim's
`tag_id(p)` well defined; consequently every foreign (non-managed) tag in
the current set is preserved in the desired set. -/
theorem tag_set_rederivation_correct (pfx : String) (idToLabel : Nat → Option String)
    (labelToId : String → Option Nat) (configured flatrate : List String)
    (current : Finset Nat)
    (hlookup : ∀ p ∈ flatrate, p ∈ configured →
      ∃ tid, labelToId (getTagLabelForProvider pfx p) = some tid ∧ tid ≠ 0) :
    (∀ t, t ∈ computeNewTags pfx idToLabel labelToId configured flatrate current ↔
      ((t ∈ current ∧ managedTag pfx idToLabel t = false) ∨
        ∃ p ∈ flatrate, p ∈ configured ∧
          labelToId (getTagLabelForProvider pfx p) = some t)) ∧
    (∀ t ∈ current, managedTag pfx idToLabel t = false →
      t ∈ computeNewTags pfx idToLabel labelToId configured flatrate current) := by
  constructor
  · intro t
    rw [mem_computeNewTags, providerTagIds_mem]
    constructor
    · rintro (⟨hc, hm⟩ | ⟨p, hp, hcf, hl, h0⟩)
      · exact Or.inl ⟨hc, by simpa using hm⟩
      · exact Or.inr ⟨p, hp, hcf, hl⟩
    · rintro (⟨hc, hm⟩ | ⟨p, hp, hcf, hl⟩)
      · exact Or.inl ⟨hc, by simpa using hm⟩
      · obtain ⟨tid, hl2, h0⟩ := hlookup p hp hcf
        rw [hl] at hl2
        cases hl2
        exact Or.inr ⟨p, hp, hcf, hl, h0⟩
  · intro t ht hm
    rw [mem_computeNewTags]
    exact Or.inl ⟨ht, by simp [hm]⟩

/-- Witness for C1 on the spec's own scenario: tags `{foo, svcp-netflix}`,
flatrate providers `{Netflix, Hulu}` all with catalog tags, where the
foreign tag `foo` (id 1) is preserved. -/
theorem tag_set_rederivation_correct_witness :
    (∀ p ∈ (["Netflix", "Hulu"] : List String), p ∈ (["Netflix", "Hulu"] : List String) →
      ∃ tid, l2iW (getTagLabelForProvider "svcp-" p) = some tid ∧ tid ≠ 0) ∧
    1 ∈ computeNewTags "svcp-" i2lW l2iW ["Netflix", "Hulu"] ["Netflix", "Hulu"] {1, 2} := by
  have hl : ∀ p ∈ (["Netflix", "Hulu"] : List String),
      p ∈ (["Netflix", "Hulu"] : List String) →
      ∃ tid, l2iW (getTagLabelForProvider "svcp-" p) = some tid ∧ tid ≠ 0 := by
    intro p hp _
    simp only [List.mem_cons, List.not_mem_nil, or_false] at hp
    rcases hp with rfl | rfl
    · exact ⟨2, by decide, by decide⟩
    · exact ⟨3, by decide, by decide⟩
  exact ⟨hl, (tag_set_rederivation_correct "svcp-" i2lW l2iW ["Netflix", "Hulu"]
    ["Netflix", "Hulu"] {1, 2} hl).2 1 (by decide) (by decide)⟩

/-- C2: reconciliation is idempotent — the desired-set computation is a
fixed point (recomputing desired from the tag set it produced yields the
same set), and a second fault-free run on the item state left by a first
fault-free run issues zero update calls. -/
theorem reconcile_idempotent (cfg : Config) (item : Item) :
    computeNewTags cfg.pfx cfg.idToLabel cfg.labelToId cfg.configured
        (cfg.avail (item.resolvedId.getD 0)) (desiredFor cfg item) =
      desiredFor cfg item ∧
    ((processItem cfg noFaults ((processItem cfg noFaults item).item)).trace).updateCalls = 0 := by
  refine ⟨computeNewTags_fixed _ _ _ _ _ _, ?_⟩
  by_cases ht : truthyId item.resolvedId
  · have hfix : desiredFor cfg ((processItem cfg noFaults item).item) =
        ((processItem cfg noFaults item).item).tags := by
      rw [processItem_noFaults_eq]
      simp only [ht, if_true]
      by_cases hne : item.tags ≠ desiredFor cfg item
      · rw [if_pos hne]
        exact computeNewTags_fixed _ _ _ _ _ _
      · rw [if_neg hne]
        push_neg at hne
        exact hne.symm
    exact processItem_updateCalls_of_fixed cfg noFaults _ hfix
  · have h1 : (processItem cfg noFaults item).item = item := by
      rw [processItem_noFaults_eq]
      simp [ht]
    rw [h1, processItem_noFaults_eq]
    simp [ht]

/-- C3: under a persistent transient (network) failure the item is
attempted exactly `MAX_RETRIES = 3` times with a fixed 30-second sleep
between attempts, no update is issued, and only the final failure is
recorded, as a single per-item error outcome; a non-network failure on
the first attempt is recorded as a single error outcome with the generic
reason after exactly one attempt, with no sleep and no retry. -/
theorem retry_policy_bounds (cfg : Config) (item : Item) (f g : Nat → Fault)
    (hf : ∀ i, i < MAX_RETRIES → f i = Fault.fetchNet)
    (hg : g 0 = Fault.fetchOther) :
    (processItem cfg f item).trace =
      ⟨0, [RETRY_DELAY_SECONDS, RETRY_DELAY_SECONDS], MAX_RETRIES,
        [ErrReason.networkAfterRetries MAX_RETRIES], [⟨∅, ∅, false⟩]⟩ ∧
    (processItem cfg g item).trace =
      ⟨0, [], 1, [ErrReason.genericError], [⟨∅, ∅, false⟩]⟩ := by
  constructor
  · show (loopAttempts cfg f (2 + 1) 0 item emptyTrace).trace = _
    rw [loopAttempts, hf 0 (by decide)]
    dsimp only
    rw [if_neg (by decide)]
    rw [show (2 : Nat) = 1 + 1 from rfl, loopAttempts, hf 1 (by decide)]
    dsimp only
    rw [if_neg (by decide)]
    rw [show (1 : Nat) = 0 + 1 from rfl, loopAttempts, hf 2 (by decide)]
    dsimp only
    rw [if_pos rfl]
    simp [recordNetworkFailure, emptyTrace, MAX_RETRIES, RETRY_DELAY_SECONDS]
  · show (loopAttempts cfg g (2 + 1) 0 item emptyTrace).trace = _
    rw [loopAttempts, hg]
    dsimp only
    simp [recordGenericFailure, emptyTrace]

/-- Witness for C3: the constant all-network and first-attempt-generic
fault schedules on the concrete configuration and item. -/
theorem retry_policy_bounds_witness :
    (∀ i, i < MAX_RETRIES → (fun _ : Nat => Fault.fetchNet) i = Fault.fetchNet) ∧
    (fun _ : Nat => Fault.fetchOther) 0 = Fault.fetchOther ∧
    (processItem cfgW (fun _ => Fault.fetchNet) itemW).trace =
      ⟨0, [RETRY_DELAY_SECONDS, RETRY_DELAY_SECONDS], MAX_RETRIES,
        [ErrReason.networkAfterRetries MAX_RETRIES], [⟨∅, ∅, false⟩]⟩ ∧
    (processItem cfgW (fun _ => Fault.fetchOther) itemW).trace =
      ⟨0, [], 1, [ErrReason.genericError], [⟨∅, ∅, false⟩]⟩ :=
  ⟨fun _ _ => rfl, rfl,
   (retry_policy_bounds cfgW itemW (fun _ => Fault.fetchNet) (fun _ => Fault.fetchOther) (fun _ _ => rfl) rfl).1,
   (retry_policy_bounds cfgW itemW (fun _ => Fault.fetchNet) (fun _ => Fault.fetchOther) (fun _ _ => rfl) rfl).2⟩

/-- C4: under any fault schedule at most one update call is issued for an
item; in the fault-free run exactly one update call is issued (carrying
the desired tag set, with the label diffs computed from the pre-mutation
current set) when desired differs from current, and zero updates with a
successful no-op outcome when they are equal. -/
theorem at_most_one_update_per_item (cfg : Config) (faults : Nat → Fault) (item : Item)
    (ht : truthyId item.resolvedId = true) :
    ((processItem cfg faults item).trace).updateCalls ≤ 1 ∧
    ((processItem cfg noFaults item).trace).updateCalls =
      (if desiredFor cfg item = item.tags then 0 else 1) ∧
    ((processItem cfg noFaults item).item).tags = desiredFor cfg item ∧
    ((processItem cfg noFaults item).trace).logCalls =
      [if desiredFor cfg item = item.tags then ⟨∅, ∅, true⟩
       else ⟨labelDiff cfg.idToLabel (desiredFor cfg item \ item.tags),
             labelDiff cfg.idToLabel (item.tags \ desiredFor cfg item), true⟩] := by
  refine ⟨loopAttempts_updateCalls_le cfg faults MAX_RETRIES 0 item emptyTrace, ?_⟩
  rw [processItem_noFaults_eq]
  simp only [ht, if_true]
  by_cases he : desiredFor cfg item = item.tags
  · have hne : ¬ item.tags ≠ desiredFor cfg item := by simp [he]
    simp [hne, he]
  · have hne : item.tags ≠ desiredFor cfg item := fun hc => he hc.symm
    simp [hne, he]

/-- Witness for C4 on the concrete configuration and item, where desired
differs from current and exactly one update is issued. -/
theorem at_most_one_update_per_item_witness :
    truthyId itemW.resolvedId = true ∧
    (((processItem cfgW noFaults itemW).trace).updateCalls ≤ 1 ∧
     ((processItem cfgW noFaults itemW).trace).updateCalls =
       (if desiredFor cfgW itemW = itemW.tags then 0 else 1) ∧
     ((processItem cfgW noFaults itemW).item).tags = desiredFor cfgW itemW ∧
     ((processItem cfgW noFaults itemW).trace).logCalls =
       [if desiredFor cfgW itemW = itemW.tags then ⟨∅, ∅, true⟩
        else ⟨labelDiff cfgW.idToLabel (desiredFor cfgW itemW \ itemW.tags),
              labelDiff cfgW.idToLabel (itemW.tags \ desiredFor cfgW itemW), true⟩]) :=
  ⟨by decide, at_most_one_update_per_item cfgW noFaults itemW (by decide)⟩

/-- C5: when TMDB id resolution yields nothing (the falsy-id test at line
280), the fault-free run records exactly one error outcome with the
`TMDB ID not found.` reason — the claim's `cross-reference identifier not
found` classification — issues zero updates, performs zero retries (one
attempt, no sleep) and makes exactly one failed `_log_change` call. -/
theorem missing_cross_reference_permanent_error (cfg : Config) (item : Item)
    (h : truthyId item.resolvedId = false) :
    processItem cfg noFaults item =
      ⟨item, ⟨0, [], 1, [ErrReason.tmdbNotFound], [⟨∅, ∅, false⟩]⟩, false⟩ := by
  rw [processItem_noFaults_eq]
  simp [h]

/-- Witness for C5: an item with no TMDB id. -/
theorem missing_cross_reference_permanent_error_witness :
    truthyId itemNoneW.resolvedId = false ∧
    processItem cfgW noFaults itemNoneW =
      ⟨itemNoneW, ⟨0, [], 1, [ErrReason.tmdbNotFound], [⟨∅, ∅, false⟩]⟩, false⟩ :=
  ⟨by decide, missing_cross_reference_permanent_error cfgW itemNoneW (by decide)⟩

/-- C6: for an updated item the recorded diffs are exactly the label sets
of `desired minus current` and `current minus desired` (computed from the
pre-mutation current set), and added and removed are disjoint; the claim
relies on tag ids being nonzero (falsy ids are filtered at lines 295-296)
and on labels being unique per catalog (the spec's Tag invariant), stated
here as injectivity of the id-to-label table on the two differences. -/
theorem diff_labels_correct_and_disjoint (cfg : Config) (item : Item)
    (ht : truthyId item.resolvedId = true)
    (hne : item.tags ≠ desiredFor cfg item)
    (h0a : 0 ∉ desiredFor cfg item) (h0b : 0 ∉ item.tags)
    (hinj : ∀ a ∈ desiredFor cfg item \ item.tags, ∀ b ∈ item.tags \ desiredFor cfg item,
      cfg.idToLabel a = cfg.idToLabel b → a = b) :
    ((processItem cfg noFaults item).trace).logCalls =
      [⟨(desiredFor cfg item \ item.tags).image cfg.idToLabel,
        (item.tags \ desiredFor cfg item).image cfg.idToLabel, true⟩] ∧
    ∀ lc ∈ ((processItem cfg noFaults item).trace).logCalls,
      lc.added ∩ lc.removed = ∅ := by
  have hfa : (desiredFor cfg item \ item.tags).filter (fun t => t ≠ 0) =
      desiredFor cfg item \ item.tags := by
    apply Finset.filter_true_of_mem
    intro x hx
    rintro rfl
    exact h0a (Finset.mem_sdiff.mp hx).1
  have hfb : (item.tags \ desiredFor cfg item).filter (fun t => t ≠ 0) =
      item.tags \ desiredFor cfg item := by
    apply Finset.filter_true_of_mem
    intro x hx
    rintro rfl
    exact h0b (Finset.mem_sdiff.mp hx).1
  have hlog : ((processItem cfg noFaults item).trace).logCalls =
      [⟨(desiredFor cfg item \ item.tags).image cfg.idToLabel,
        (item.tags \ desiredFor cfg item).image cfg.idToLabel, true⟩] := by
    rw [processItem_noFaults_eq]
    rw [if_pos ht, if_pos hne]
    simp [labelDiff, hfa, hfb]
  refine ⟨hlog, ?_⟩
  intro lc hlc
  rw [hlog] at hlc
  simp only [List.mem_singleton] at hlc
  subst hlc
  ext l
  simp only [Finset.mem_inter, Finset.mem_image, Finset.not_mem_empty, iff_false]
  rintro ⟨⟨a, ha, rfl⟩, ⟨b, hb, hab⟩⟩
  have := hinj a ha b hb hab.symm
  subst this
  exact (Finset.mem_sdiff.mp hb).2 (Finset.mem_sdiff.mp ha).1

/-- Witness for C6: the concrete item gains `svcp-hulu` and loses
nothing; added and removed label sets are disjoint. -/
theorem diff_labels_correct_and_disjoint_witness :
    (truthyId itemW.resolvedId = true ∧
     itemW.tags ≠ desiredFor cfgW itemW ∧
     0 ∉ desiredFor cfgW itemW ∧ 0 ∉ itemW.tags ∧
     (∀ a ∈ desiredFor cfgW itemW \ itemW.tags, ∀ b ∈ itemW.tags \ desiredFor cfgW itemW,
       cfgW.idToLabel a = cfgW.idToLabel b → a = b)) ∧
    ((processItem cfgW noFaults itemW).trace).logCalls =
      [⟨(desiredFor cfgW itemW \ itemW.tags).image cfgW.idToLabel,
        (itemW.tags \ desiredFor cfgW itemW).image cfgW.idToLabel, true⟩] ∧
    ∀ lc ∈ ((processItem cfgW noFaults itemW).trace).logCalls,
      lc.added ∩ lc.removed = ∅ := by
  refine ⟨⟨by decide, by decide, by decide, by decide, by decide⟩, ?_, ?_⟩
  · exact (diff_labels_correct_and_disjoint cfgW itemW (by decide) (by decide)
      (by decide) (by decide) (by decide)).1
  · exact (diff_labels_correct_and_disjoint cfgW itemW (by decide) (by decide)
      (by decide) (by decide) (by decide)).2

/-- C7 counterexample: line 148 lower-cases the whole concatenation, so
with the configured prefix `SVCP-` the code's label for `Netflix` is
`svcp-netflix`, not the spec formula's `SVCP-netflix` — the claimed
equality `labelFor(providerName) = prefix + normalize(providerName)`
fails for a prefix that is not already lower-case. -/
theorem label_codec_spec_formula_counterexample :
    getTagLabelForProvider "SVCP-" "Netflix" ≠ labelForSpec "SVCP-" "Netflix" := by
  decide

/-- C7 as amended: the codec is the pure deterministic function
`lowercase(prefix + strip(providerName))`, i.e. the spec formula applied
to the lower-cased prefix; when the configured prefix is already
lower-case the claim's formula `prefix + normalize(providerName)` holds
exactly. -/
theorem label_codec_lowercases_whole_label (pfx name : String) :
    getTagLabelForProvider pfx name = labelForSpec (pyLower pfx) name ∧
    (pyLower pfx = pfx → getTagLabelForProvider pfx name = labelForSpec pfx name) := by
  have h : getTagLabelForProvider pfx name =
      pyLower pfx ++ pyLower (sanitizeName name) := pyLower_append _ _
  refine ⟨h, ?_⟩
  intro hp
  rw [h, hp]
  rfl

/-- Witness for C7 (amended) at the default lower-case prefix `svcp-`. -/
theorem label_codec_lowercases_whole_label_witness :
    pyLower "svcp-" = "svcp-" ∧
    getTagLabelForProvider "svcp-" "Netflix" = labelForSpec (pyLower "svcp-") "Netflix" ∧
    getTagLabelForProvider "svcp-" "Netflix" = labelForSpec "svcp-" "Netflix" :=
  ⟨by decide, (label_codec_lowercases_whole_label "svcp-" "Netflix").1,
   (label_codec_lowercases_whole_label "svcp-" "Netflix").2 (by decide)⟩

/-- C8: every processed item makes exactly one `_log_change` call under
any fault schedule, and delivering N outcomes to the aggregator (in any
serialisation the lock produces, regardless of the number of workers)
appends exactly N outcome-log entries and increments the per-service
processed/errors counters by N in total. -/
theorem aggregator_outcome_counts (cfg : Config) (faults : Nat → Fault) (item : Item)
    (st : AggState) (subs : List Submission) :
    ((processItem cfg faults item).trace).logCalls.length = 1 ∧
    (recordAll st subs).changesLog.length = st.changesLog.length + subs.length ∧
    statsSum (recordAll st subs).serviceStats = statsSum st.serviceStats + subs.length :=
  ⟨loopAttempts_logCalls cfg faults MAX_RETRIES 0 item emptyTrace,
   (recordAll_counts subs st).1, (recordAll_counts subs st).2⟩

/-- C9 counterexample: with an empty configured prefix, the missing-label
default `""` does start with the prefix (`"".startswith("")` is true in
Python), so a current tag id absent from the id-to-label table is treated
as managed and dropped from the desired set — here id 5 is not retained. -/
theorem unknown_tag_dropped_empty_prefix_counterexample :
    5 ∈ ({5} : Finset Nat) ∧
    (fun _ : Nat => (none : Option String)) 5 = none ∧
    5 ∉ computeNewTags "" (fun _ => none) (fun _ => none) [] [] {5} := by
  decide

/-- C9 as amended: provided the configured prefix is non-empty, a current
tag id with no entry in the id-to-label table is treated as foreign — its
missing-label default `""` cannot carry the prefix — and is always
retained in the desired set. -/
theorem unknown_tag_retained_of_nonempty_prefix (pfx : String)
    (idToLabel : Nat → Option String) (labelToId : String → Option Nat)
    (configured flatrate : List String) (current : Finset Nat) (t : Nat)
    (hpfx : pfx ≠ "") (hmiss : idToLabel t = none) (hmem : t ∈ current) :
    t ∈ computeNewTags pfx idToLabel labelToId configured flatrate current := by
  rw [mem_computeNewTags]
  left
  refine ⟨hmem, ?_⟩
  simp only [managedTag, hmiss, Option.getD]
  cases pfx with
  | mk l =>
    cases l with
    | nil => exact absurd rfl hpfx
    | cons c cs => simp [pyStartswith, charsStart]

/-- Witness for C9 (amended): unknown tag id 9 is retained under the
default prefix. -/
theorem unknown_tag_retained_of_nonempty_prefix_witness :
    ("svcp-" : String) ≠ "" ∧ i2lW 9 = none ∧ 9 ∈ ({9} : Finset Nat) ∧
    9 ∈ computeNewTags "svcp-" i2lW l2iW ["Netflix", "Hulu"] ["Netflix", "Hulu"] {9} :=
  ⟨by decide, by decide, by decide,
   unknown_tag_retained_of_nonempty_prefix "svcp-" i2lW l2iW ["Netflix", "Hulu"]
     ["Netflix", "Hulu"] {9} 9 (by decide) (by decide) (by decide)⟩

/-- C10: a configured flatrate provider whose derived tag label has no
entry in the label-to-id table contributes nothing to the desired set —
removing it from the flatrate list leaves the computed set unchanged —
and the fault-free run records no error outcome for this condition. -/
theorem provider_without_tag_skipped (cfg : Config) (item : Item) (p : String)
    (flat : List String) (cur : Finset Nat)
    (hmem : p ∈ cfg.configured)
    (hnone : cfg.labelToId (getTagLabelForProvider cfg.pfx p) = none)
    (ht : truthyId item.resolvedId = true) :
    computeNewTags cfg.pfx cfg.idToLabel cfg.labelToId cfg.configured (p :: flat) cur =
      computeNewTags cfg.pfx cfg.idToLabel cfg.labelToId cfg.configured flat cur ∧
    ((processItem cfg noFaults item).trace).errors = [] := by
  constructor
  · ext t
    rw [mem_computeNewTags, mem_computeNewTags, providerTagIds_mem, providerTagIds_mem]
    constructor
    · rintro (h | ⟨q, hq, hc, hl, h0⟩)
      · exact Or.inl h
      · rcases List.mem_cons.mp hq with rfl | hq2
        · rw [hnone] at hl
          cases hl
        · exact Or.inr ⟨q, hq2, hc, hl, h0⟩
    · rintro (h | ⟨q, hq, hc, hl, h0⟩)
      · exact Or.inl h
      · exact Or.inr ⟨q, List.mem_cons_of_mem p hq, hc, hl, h0⟩
  · rw [processItem_noFaults_eq]
    rw [if_pos ht]
    split <;> rfl

/-- Witness for C10: configured provider `Disney+` has no catalog tag and
is skipped with no error recorded. -/
theorem provider_without_tag_skipped_witness :
    ("Disney+" ∈ cfg10W.configured ∧
     cfg10W.labelToId (getTagLabelForProvider cfg10W.pfx "Disney+") = none ∧
     truthyId itemW.resolvedId = true) ∧
    computeNewTags cfg10W.pfx cfg10W.idToLabel cfg10W.labelToId cfg10W.configured
        ("Disney+" :: ["Netflix"]) {1, 2} =
      computeNewTags cfg10W.pfx cfg10W.idToLabel cfg10W.labelToId cfg10W.configured
        ["Netflix"] {1, 2} ∧
    ((processItem cfg10W noFaults itemW).trace).errors = [] := by
  refine ⟨⟨by decide, by decide, by decide⟩, ?_, ?_⟩
  · exact (provider_without_tag_skipped cfg10W itemW "Disney+" ["Netflix"] {1, 2}
      (by decide) (by decide) (by decide)).1
  · exact (provider_without_tag_skipped cfg10W itemW "Disney+" ["Netflix"] {1, 2}
      (by decide) (by decide) (by decide)).2

end Elsewherr
